import Mathlib

/-!
Verification of the HomeHelp.io valuation, ranking and analysis logic.

The development shallowly embeds the arithmetic core of the repository:

* `app/home_analyzer_app.py` — the listing-valuation formulas
  (`size_adjustment`, `feature_adjustment`, `market_heat_multiplier`,
  `growth_premium`, the valuation block and the metro-ranking block), and
  `load_data`.
* `homeanalyzer/backend/app_with_custom_ai.py` — the `CustomAIAnalyzer`
  tiered deal scorer, the key-factor extraction and the fallback path.

Python floats are modelled exactly: the valuation formulas (which use a real
exponent) live over `ℝ`, the analyzer arithmetic over `ℚ`, and the
pandas ranking pipeline over an explicit value type `PVal` carrying the
non-finite values (`nan`, `inf`, `-inf`) that pandas arithmetic produces.
A missing (NaN) scalar coming from the data frame is an `Option` that is
`none`.
-/

namespace HomeLens

/-- `size_adjustment` from `app/home_analyzer_app.py` (defaults
`anchor_sqft = 1500.0`, `elasticity = 0.72` applied, as at the call site):
`(sqft / anchor_sqft) ** elasticity`. -/
noncomputable def size_adjustment (sqft : ℝ) : ℝ :=
  (sqft / 1500) ^ (0.72 : ℝ)

/-- `feature_adjustment` from `app/home_analyzer_app.py`:
`bed_base, bath_base = 3, 2.0`; `1.0 + 0.035*(beds-bed_base) + 0.05*(baths-bath_base)`. -/
noncomputable def feature_adjustment (beds : ℝ) (baths : ℝ) : ℝ :=
  let bed_bump := 0.035 * (beds - 3)
  let bath_bump := 0.05 * (baths - 2.0)
  1.0 + bed_bump + bath_bump

/-- `market_heat_multiplier` from `app/home_analyzer_app.py`; a missing
(`NaN`) `market_temp_index` is `none`. -/
noncomputable def market_heat_multiplier : Option ℝ → ℝ
  | none => 1.0
  | some market_temp_index => 1.0 + 0.03 * (market_temp_index / 10.0)

/-- `growth_premium` from `app/home_analyzer_app.py`; a missing (`NaN`)
`zhvi_growth` is `none`. -/
noncomputable def growth_premium : Option ℝ → ℝ
  | none => 1.0
  | some zhvi_growth => 1.0 + (0.02 * (zhvi_growth / 1.0))

/-- Line 88 of `app/home_analyzer_app.py`:
`deal_score = max(0.0, min(1.0, edge / 0.05))`. -/
noncomputable def deal_score (edge : ℝ) : ℝ :=
  max 0.0 (min 1.0 (edge / 0.05))

/-- The quantities displayed by the listing-valuation block
(lines 79–88 of `app/home_analyzer_app.py`). -/
structure ValuationOutput where
  fair_value : ℝ
  edge : ℝ
  score : ℝ
  f_size : ℝ
  f_feat : ℝ
  f_heat : ℝ
  f_growth : ℝ

/-- The listing-valuation block of `app/home_analyzer_app.py`
(lines 79–88): factors, fair value, edge, deal score. -/
noncomputable def score_listing (base_zhvi : ℝ)
    (market_temp_index zhvi_growth : Option ℝ)
    (list_price sqft beds baths : ℝ) : ValuationOutput :=
  let f_size := size_adjustment sqft
  let f_feat := feature_adjustment beds baths
  let f_heat := market_heat_multiplier market_temp_index
  let f_growth := growth_premium zhvi_growth
  let fair_value := base_zhvi * f_size * f_feat * f_heat * f_growth
  let edge := (fair_value - list_price) / list_price
  ⟨fair_value, edge, deal_score edge, f_size, f_feat, f_heat, f_growth⟩

/-- C1: for every metro baseline `zhvi` and listing, the valuation block
returns `fair_value = zhvi * size_factor * feature_factor * heat_factor *
growth_factor` with `size_factor = (sqft/1500)^0.72` and
`feature_factor = 1 + 0.035*(beds-3) + 0.05*(baths-2.0)`, and
`edge = (fair_value - list_price)/list_price`. -/
theorem c1_fair_value_edge_formula (base_zhvi : ℝ)
    (market_temp_index zhvi_growth : Option ℝ)
    (list_price sqft beds baths : ℝ) :
    (score_listing base_zhvi market_temp_index zhvi_growth
        list_price sqft beds baths).fair_value
      = base_zhvi * ((sqft / 1500) ^ (0.72 : ℝ))
          * (1 + 0.035 * (beds - 3) + 0.05 * (baths - 2.0))
          * market_heat_multiplier market_temp_index
          * growth_premium zhvi_growth
    ∧ (score_listing base_zhvi market_temp_index zhvi_growth
          list_price sqft beds baths).edge
      = ((score_listing base_zhvi market_temp_index zhvi_growth
            list_price sqft beds baths).fair_value - list_price) / list_price := by
  constructor
  · show base_zhvi * size_adjustment sqft * feature_adjustment beds baths
        * market_heat_multiplier market_temp_index * growth_premium zhvi_growth = _
    unfold size_adjustment feature_adjustment
    ring_nf
  · rfl

/-- C2: `deal_score = clamp(edge/0.05, 0, 1)`: it always lies in `[0,1]`,
saturates at `1` for `edge ≥ 0.05` and at `0` for `edge ≤ 0`. -/
theorem c2_deal_score_clamp (edge : ℝ) :
    deal_score edge = max 0 (min 1 (edge / 0.05))
    ∧ (0 ≤ deal_score edge ∧ deal_score edge ≤ 1)
    ∧ (0.05 ≤ edge → deal_score edge = 1)
    ∧ (edge ≤ 0 → deal_score edge = 0) := by
  have hd : deal_score edge = max 0 (min 1 (edge / 0.05)) := by
    norm_num [deal_score]
  refine ⟨hd, ⟨?_, ?_⟩, ?_, ?_⟩
  · rw [hd]; exact le_max_left _ _
  · rw [hd]; exact max_le (by norm_num) (min_le_left _ _)
  · intro h
    have h1 : (1 : ℝ) ≤ edge / 0.05 := by
      rw [le_div_iff₀ (by norm_num : (0:ℝ) < 0.05)]; linarith
    rw [hd, min_eq_left h1]
    norm_num
  · intro h
    have h1 : edge / 0.05 ≤ 0 := div_nonpos_of_nonpos_of_nonneg h (by norm_num)
    rw [hd, min_eq_right (le_trans h1 (by norm_num)), max_eq_left h1]

/-- C2 witness: concrete saturation at both ends. -/
theorem c2_deal_score_clamp_witness :
    deal_score 0.1 = 1 ∧ deal_score (-0.02) = 0 :=
  ⟨(c2_deal_score_clamp 0.1).2.2.1 (by norm_num),
   (c2_deal_score_clamp (-0.02)).2.2.2 (by norm_num)⟩

/-- C6: a missing `market_temp_index` gives `heat_factor = 1.0` exactly and a
missing `zhvi_growth` gives `growth_factor = 1.0` exactly; when present,
`heat_factor = 1 + 0.03*(market_temp_index/10)` and
`growth_factor = 1 + 0.02*zhvi_growth`. -/
theorem c6_missing_fields_neutral :
    market_heat_multiplier none = 1.0
    ∧ growth_premium none = 1.0
    ∧ (∀ x : ℝ, market_heat_multiplier (some x) = 1 + 0.03 * (x / 10))
    ∧ (∀ x : ℝ, growth_premium (some x) = 1 + 0.02 * x) := by
  refine ⟨rfl, rfl, fun x => by norm_num [market_heat_multiplier],
    fun x => by norm_num [growth_premium]⟩

/-- C8: `size_adjustment` is strictly increasing on positive square footage
and equals `1.0` exactly at the 1500 sqft anchor. -/
theorem c8_size_adjustment_mono_anchor :
    (∀ a b : ℝ, 0 < a → a < b → size_adjustment a < size_adjustment b)
    ∧ size_adjustment 1500 = 1 := by
  constructor
  · intro a b ha hab
    unfold size_adjustment
    exact Real.rpow_lt_rpow (by positivity)
      ((div_lt_div_iff_of_pos_right (by norm_num : (0:ℝ) < 1500)).mpr hab)
      (by norm_num)
  · unfold size_adjustment
    rw [div_self (by norm_num : (1500:ℝ) ≠ 0), Real.one_rpow]

/-- C8 witness: strict growth between two concrete sizes. -/
theorem c8_size_adjustment_mono_anchor_witness :
    size_adjustment 1000 < size_adjustment 2000 :=
  c8_size_adjustment_mono_anchor.1 1000 2000 (by norm_num) (by norm_num)

end HomeLens

namespace CustomAI

/-- Python `int()` truncation toward zero, applied to an exact rational. -/
def pyInt (q : ℚ) : ℤ :=
  if 0 ≤ q then ⌊q⌋ else ⌈q⌉

/-- The property-dict fields read by `CustomAIAnalyzer` in
`homeanalyzer/backend/app_with_custom_ai.py`; a key absent from the dict is
`none`, and `dict.get(key, default)` becomes `Option.getD`. -/
structure PropertyData where
  price : Option ℚ
  sqft : Option ℚ
  bedrooms : Option ℚ
  bathrooms : Option ℚ
  year_built : Option ℚ
  lot_size : Option ℚ
  property_type : Option String
  address : Option String
deriving DecidableEq

/-- The analysis dict returned by `CustomAIAnalyzer.analyze_property` /
`fallback_analysis`.  The constant `value_drivers` dict and the free-text
`explanation` string are display-only and not modelled. -/
structure AnalysisResult where
  predicted_value : ℚ
  deal_score : ℚ
  pricing_assessment : String
  key_factors : List String
  price_per_sqft : ℚ
  predicted_price_per_sqft : ℚ
deriving DecidableEq

/-- `price_diff_pct = ((predicted_value - listing_price) / listing_price) * 100`
(line 169 of `app_with_custom_ai.py`). -/
def price_diff_pct (predicted_value listing_price : ℚ) : ℚ :=
  ((predicted_value - listing_price) / listing_price) * 100

/-- The deal-score / pricing-assessment tier ladder of
`CustomAIAnalyzer.analyze_property` (lines 171–186). -/
def deal_tier (pct : ℚ) : ℚ × String :=
  if pct > 15 then (9.5, "significantly_underpriced")
  else if pct > 5 then (8.0, "underpriced")
  else if pct > -5 then (6.5, "fairly_priced")
  else if pct > -15 then (4.0, "overpriced")
  else (2.0, "significantly_overpriced")

/-- `CustomAIAnalyzer.identify_key_factors` (lines 237–260). -/
def identify_key_factors (property_data : PropertyData) (pct : ℚ) : List String :=
  let sqft := pyInt (property_data.sqft.getD 1800)
  let factors : List String :=
    if sqft > 2500 then ["Large living space"]
    else if sqft < 1200 then ["Compact size may limit value"]
    else []
  let bedrooms := pyInt (property_data.bedrooms.getD 3)
  let factors := factors ++
    (if bedrooms ≥ 4 then ["Family-friendly bedroom count"] else [])
  let year_built := pyInt (property_data.year_built.getD 1990)
  let factors := factors ++
    (if year_built > 2010 then ["Modern construction"]
     else if year_built < 1980 then ["Older home may need updates"]
     else [])
  let factors := factors ++
    (if pct > 10 then ["Potentially undervalued opportunity"] else [])
  factors.take 3

/-- `CustomAIAnalyzer.fallback_analysis` (lines 262–283). -/
def fallback_analysis (property_data : PropertyData) : AnalysisResult :=
  let price : ℤ := pyInt (property_data.price.getD 0)
  let sqft : ℤ := pyInt (property_data.sqft.getD 1)
  let price_per_sqft : ℚ := if sqft > 0 then (price : ℚ) / (sqft : ℚ) else 0
  ⟨(price : ℚ) * 0.98, 5.0, "unknown", ["Analysis limited without AI model"],
    price_per_sqft, price_per_sqft⟩

/-- `CustomAIAnalyzer.analyze_property` (lines 133–209).  `model_loaded`
mirrors `self.model_loaded`; `prediction` is the outcome of
`predict_house_price` (`none` when it raises, which the surrounding
`try/except` turns into the fallback path). -/
def analyze_property (model_loaded : Bool) (prediction : Option ℚ)
    (property_data : PropertyData) : AnalysisResult :=
  if model_loaded = false then fallback_analysis property_data
  else
    match prediction with
    | none => fallback_analysis property_data
    | some predicted_value =>
      let sqft : ℚ := property_data.sqft.getD 1800
      let listing_price : ℚ := property_data.price.getD 400000
      let pct := price_diff_pct predicted_value listing_price
      let tier := deal_tier pct
      ⟨((pyInt predicted_value : ℤ) : ℚ), tier.1, tier.2,
        identify_key_factors property_data pct,
        if sqft > 0 then ((pyInt (listing_price / sqft) : ℤ) : ℚ) else 0,
        if sqft > 0 then ((pyInt (((pyInt predicted_value : ℤ) : ℚ) / sqft) : ℤ) : ℚ) else 0⟩

/-- C5: for nonzero listing price, the tiered scorer computes
`pct_diff = (predicted - listing)/listing * 100` and maps it through the
five threshold tiers to the coded deal scores and labels; in particular
`pct_diff = 20 ↦ (9.5, significantly_underpriced)`,
`pct_diff = 0 ↦ fairly_priced`, `pct_diff = -20 ↦ (2.0,
significantly_overpriced)`. -/
theorem c5_tiered_scorer (predicted listing : ℚ) (h : listing ≠ 0) :
    price_diff_pct predicted listing = (predicted - listing) / listing * 100
    ∧ (∀ pct : ℚ,
        (15 < pct → deal_tier pct = (9.5, "significantly_underpriced"))
        ∧ (5 < pct ∧ pct ≤ 15 → deal_tier pct = (8.0, "underpriced"))
        ∧ (-5 < pct ∧ pct ≤ 5 → deal_tier pct = (6.5, "fairly_priced"))
        ∧ (-15 < pct ∧ pct ≤ -5 → deal_tier pct = (4.0, "overpriced"))
        ∧ (pct ≤ -15 → deal_tier pct = (2.0, "significantly_overpriced")))
    ∧ deal_tier 20 = (9.5, "significantly_underpriced")
    ∧ deal_tier 0 = (6.5, "fairly_priced")
    ∧ deal_tier (-20) = (2.0, "significantly_overpriced") := by
  refine ⟨rfl, fun pct => ⟨?_, ?_, ?_, ?_, ?_⟩, ?_, ?_, ?_⟩
  · intro h1
    unfold deal_tier
    rw [if_pos h1]
  · rintro ⟨h1, h2⟩
    unfold deal_tier
    rw [if_neg (not_lt.mpr h2), if_pos h1]
  · rintro ⟨h1, h2⟩
    unfold deal_tier
    rw [if_neg (not_lt.mpr (le_trans h2 (by norm_num))), if_neg (not_lt.mpr h2),
      if_pos h1]
  · rintro ⟨h1, h2⟩
    unfold deal_tier
    rw [if_neg (not_lt.mpr (le_trans h2 (by norm_num))),
      if_neg (not_lt.mpr (le_trans h2 (by norm_num))), if_neg (not_lt.mpr h2),
      if_pos h1]
  · intro h1
    unfold deal_tier
    rw [if_neg (not_lt.mpr (le_trans h1 (by norm_num))),
      if_neg (not_lt.mpr (le_trans h1 (by norm_num))),
      if_neg (not_lt.mpr (le_trans h1 (by norm_num))), if_neg (not_lt.mpr h1)]
  · norm_num [deal_tier]
  · norm_num [deal_tier]
  · norm_num [deal_tier]

/-- C5 witness: concrete evaluation of the percentage difference and the top
tier. -/
theorem c5_tiered_scorer_witness :
    price_diff_pct 120 100 = 20
    ∧ deal_tier 20 = (9.5, "significantly_underpriced") := by
  have h := c5_tiered_scorer 120 100 (by norm_num)
  exact ⟨by rw [h.1]; norm_num, (h.2.1 20).1 (by norm_num)⟩

theorem identify_key_factors_length_le (property_data : PropertyData) (pct : ℚ) :
    (identify_key_factors property_data pct).length ≤ 3 := by
  unfold identify_key_factors
  exact List.length_take_le _ _

/-- A property whose listing price is not a whole number (100.5). -/
def fracPD : PropertyData :=
  ⟨some (201 / 2), some 1800, some 3, some 2, some 1990, some 8000,
    some "House", some "123 Main St"⟩

/-- C9 counterexample: `fallback_analysis` first truncates the listing price
with Python `int()`, so for a listing price of 100.5 the predicted value is
`0.98 * 100 = 98`, not 98% of 100.5. -/
theorem c9_counterexample :
    (analyze_property false none fracPD).predicted_value
      ≠ 0.98 * (201 / 2 : ℚ) := by
  have hf : ⌊(201 / 2 : ℚ)⌋ = 100 := by
    rw [Int.floor_eq_iff]
    constructor <;> norm_num
  have hint : pyInt (201 / 2 : ℚ) = 100 := by
    unfold pyInt
    rw [if_pos (by norm_num), hf]
  have h : (analyze_property false none fracPD).predicted_value
      = ((pyInt (201 / 2 : ℚ) : ℤ) : ℚ) * 0.98 := rfl
  rw [h, hint]
  norm_num

/-- C9 (amended): when no trained model is loaded (or the prediction
raises), the analyzer answers with the fallback result rather than failing:
predicted value 98% of the `int()`-truncated listing price and a fixed
mid-range deal score of 5.0. -/
theorem c9_fallback_path (model_loaded : Bool) (prediction : Option ℚ)
    (property_data : PropertyData)
    (hm : model_loaded = false ∨ prediction = none) :
    analyze_property model_loaded prediction property_data
        = fallback_analysis property_data
    ∧ (analyze_property model_loaded prediction property_data).predicted_value
        = 0.98 * ((pyInt (property_data.price.getD 0) : ℤ) : ℚ)
    ∧ (analyze_property model_loaded prediction property_data).deal_score
        = 5.0 := by
  have hfb : analyze_property model_loaded prediction property_data
      = fallback_analysis property_data := by
    rcases hm with hm | hm
    · subst hm; rfl
    · subst hm
      unfold analyze_property
      cases model_loaded <;> rfl
  refine ⟨hfb, ?_, by rw [hfb]; rfl⟩
  rw [hfb]
  show ((pyInt (property_data.price.getD 0) : ℤ) : ℚ) * 0.98
      = 0.98 * ((pyInt (property_data.price.getD 0) : ℤ) : ℚ)
  ring

/-- C9 witness: a concrete property analyzed with no model present. -/
def samplePD : PropertyData :=
  ⟨some 400000, some 1800, some 3, some 2, some 1990, some 8000,
    some "House", some "123 Main St"⟩

theorem c9_fallback_path_witness :
    analyze_property false none samplePD = fallback_analysis samplePD
    ∧ (analyze_property false none samplePD).predicted_value
        = 0.98 * ((pyInt ((samplePD.price).getD 0) : ℤ) : ℚ)
    ∧ (analyze_property false none samplePD).deal_score = 5.0 :=
  c9_fallback_path false none samplePD (Or.inl rfl)

/-- C10: whatever the inputs, the analyzer returns at most three key
factors (the main path truncates with `factors[:3]`, the fallback returns a
single fixed entry). -/
theorem c10_key_factors_at_most_three (model_loaded : Bool)
    (prediction : Option ℚ) (property_data : PropertyData) :
    (analyze_property model_loaded prediction property_data).key_factors.length
      ≤ 3 := by
  unfold analyze_property
  cases model_loaded with
  | false => simp [fallback_analysis]
  | true =>
    cases prediction with
    | none => simp [fallback_analysis]
    | some v =>
      simp only [Bool.true_eq_false, if_false]
      exact identify_key_factors_length_le _ _

end CustomAI

namespace HomeLens

/-- A row of the merged metro-month CSV as read by `load_data`
(`app/home_analyzer_app.py`, lines 8–21).  Dates are abstracted to naturals
(only their ordering matters); a NaN cell is `none`. -/
structure CsvRow where
  date : ℕ
  RegionName : Option String
  StateName : Option String
  zhvi : Option ℚ
  zori : Option ℚ
  inventory : Option ℚ
  sales_count : Option ℚ
  market_temp_index : Option ℚ
  zhvi_growth : Option ℚ
deriving DecidableEq

/-- The eight columns `load_data` selects into the metro table. -/
structure MetroRow where
  RegionName : Option String
  StateName : Option String
  zhvi : Option ℚ
  zori : Option ℚ
  inventory : Option ℚ
  sales_count : Option ℚ
  market_temp_index : Option ℚ
  zhvi_growth : Option ℚ
deriving DecidableEq

/-- Column selection
`latest[["RegionName","StateName","zhvi","zori","inventory","sales_count","market_temp_index","zhvi_growth"]]`. -/
def selectMetroCols (r : CsvRow) : MetroRow :=
  ⟨r.RegionName, r.StateName, r.zhvi, r.zori, r.inventory, r.sales_count,
    r.market_temp_index, r.zhvi_growth⟩

/-- `df["date"].max()`. -/
def latestDate (df : List CsvRow) : ℕ :=
  (df.map (·.date)).foldr max 0

/-- pandas `DataFrame.drop_duplicates()` with default arguments: keep the
first occurrence of each fully identical row, preserving order.  `seen`
accumulates the rows already emitted. -/
def dedupAux (seen : List MetroRow) : List MetroRow → List MetroRow
  | [] => []
  | r :: rs => if r ∈ seen then dedupAux seen rs else r :: dedupAux (r :: seen) rs

def dropDuplicates (l : List MetroRow) : List MetroRow :=
  dedupAux [] l

/-- `load_data` (lines 8–21): filter to the latest month, select the metro
columns, `drop_duplicates()`, then `dropna(subset=["RegionName","StateName"])`.
Reading the CSV itself is abstracted to the already-parsed row list. -/
def load_data (df : List CsvRow) : List MetroRow :=
  let latest_date := latestDate df
  let latest := df.filter (fun r => r.date = latest_date)
  let metro := dropDuplicates (latest.map selectMetroCols)
  metro.filter (fun r => r.RegionName.isSome && r.StateName.isSome)

/-- Two rows of the latest month sharing (RegionName, StateName) but
differing in `zhvi`. -/
def dupRowA : CsvRow :=
  ⟨1, some "Seattle", some "Washington", some 700000, some 2500, some 100,
    some 50, some 7, some (3 / 100)⟩

def dupRowB : CsvRow :=
  ⟨1, some "Seattle", some "Washington", some 710000, some 2500, some 100,
    some 50, some 7, some (3 / 100)⟩

/-- C3 (refuted by evaluation): `drop_duplicates()` deduplicates only fully
identical rows, so two latest-month rows for the same
(RegionName, StateName) pair that differ in `zhvi` both survive `load_data`,
contradicting the claimed one-record-per-(region,state) invariant (and the
source's own comment "Deduplicate per metro/state"). -/
theorem c3_dedup_not_per_region_state :
    (load_data [dupRowA, dupRowB]).length = 2
    ∧ (load_data [dupRowA, dupRowB]).map
        (fun r => (r.RegionName, r.StateName))
      = [(some "Seattle", some "Washington"),
         (some "Seattle", some "Washington")] := by
  constructor <;> rfl

/-- An exact model of the float values flowing through the pandas ranking
pipeline: a finite value, `NaN`, `+inf` or `-inf`. -/
inductive PVal where
  | num : ℚ → PVal
  | nan : PVal
  | inf : PVal
  | ninf : PVal
deriving DecidableEq

namespace PVal

def neg : PVal → PVal
  | num a => num (-a)
  | nan => nan
  | inf => ninf
  | ninf => inf

def add : PVal → PVal → PVal
  | nan, _ => nan
  | _, nan => nan
  | num a, num b => num (a + b)
  | num _, inf => inf
  | num _, ninf => ninf
  | inf, num _ => inf
  | ninf, num _ => ninf
  | inf, inf => inf
  | ninf, ninf => ninf
  | inf, ninf => nan
  | ninf, inf => nan

def sub (a b : PVal) : PVal :=
  add a (neg b)

def mul : PVal → PVal → PVal
  | nan, _ => nan
  | _, nan => nan
  | num a, num b => num (a * b)
  | num a, inf => if 0 < a then inf else if a < 0 then ninf else nan
  | num a, ninf => if 0 < a then ninf else if a < 0 then inf else nan
  | inf, num b => if 0 < b then inf else if b < 0 then ninf else nan
  | ninf, num b => if 0 < b then ninf else if b < 0 then inf else nan
  | inf, inf => inf
  | ninf, ninf => inf
  | inf, ninf => ninf
  | ninf, inf => ninf

def div : PVal → PVal → PVal
  | nan, _ => nan
  | _, nan => nan
  | num a, num b =>
    if b ≠ 0 then num (a / b)
    else if 0 < a then inf else if a < 0 then ninf else nan
  | num _, inf => num 0
  | num _, ninf => num 0
  | inf, num b => if b < 0 then ninf else inf
  | ninf, num b => if b < 0 then inf else ninf
  | inf, inf => nan
  | inf, ninf => nan
  | ninf, inf => nan
  | ninf, ninf => nan

def isNaN : PVal → Bool
  | nan => true
  | _ => false

/-- The total order on non-NaN floats used when sorting (`-inf < finite < inf`);
`NaN` never takes part in a comparison. -/
def ble : PVal → PVal → Bool
  | nan, _ => false
  | _, nan => false
  | ninf, _ => true
  | _, inf => true
  | inf, ninf => false
  | inf, num _ => false
  | num _, ninf => false
  | num a, num b => decide (a ≤ b)

def pvmin (a b : PVal) : PVal :=
  if ble a b then a else b

def pvmax (a b : PVal) : PVal :=
  if ble b a then a else b

end PVal

/-- pandas `Series.min()` (skipna): NaN entries are ignored; a series with
no non-NaN entry has NaN minimum. -/
def nanmin (l : List PVal) : PVal :=
  match l.filter (fun v => !v.isNaN) with
  | [] => PVal.nan
  | v :: vs => vs.foldl PVal.pvmin v

/-- pandas `Series.max()` (skipna). -/
def nanmax (l : List PVal) : PVal :=
  match l.filter (fun v => !v.isNaN) with
  | [] => PVal.nan
  | v :: vs => vs.foldl PVal.pvmax v

/-- A scalar taken out of the loaded data frame: NaN or finite. -/
def toPVal : Option ℚ → PVal
  | none => PVal.nan
  | some q => PVal.num q

/-- Line 109 of `app/home_analyzer_app.py`:
`tmp = tmp.replace([np.inf, -np.inf], np.nan)` acting on one cell. -/
def replaceInf : PVal → PVal
  | PVal.inf => PVal.nan
  | PVal.ninf => PVal.nan
  | v => v

/-- A row of the ranking frame `tmp` after lines 106–109: the metro columns
plus the two derived columns (`sales_inventory` models the source column
`sales_inventory_ratio`). -/
structure TmpRow where
  RegionName : Option String
  StateName : Option String
  zhvi : PVal
  zori : PVal
  inventory : PVal
  sales_count : PVal
  market_temp_index : PVal
  zhvi_growth : PVal
  price_to_rent : PVal
  sales_inventory : PVal
deriving DecidableEq

/-- Lines 106–109: derive `price_to_rent = zhvi / zori` and
`sales_inventory_ratio = sales_count / inventory`, then replace `±inf`
with NaN across the frame. -/
def deriveTmp (r : MetroRow) : TmpRow :=
  let p2r := PVal.div (toPVal r.zhvi) (toPVal r.zori)
  let si := PVal.div (toPVal r.sales_count) (toPVal r.inventory)
  ⟨r.RegionName, r.StateName,
    replaceInf (toPVal r.zhvi), replaceInf (toPVal r.zori),
    replaceInf (toPVal r.inventory), replaceInf (toPVal r.sales_count),
    replaceInf (toPVal r.market_temp_index), replaceInf (toPVal r.zhvi_growth),
    replaceInf p2r, replaceInf si⟩

/-- One min-max normalisation term `(x - col.min()) / (col.max() - col.min())`. -/
def normalizeVal (x mn mx : PVal) : PVal :=
  PVal.div (PVal.sub x mn) (PVal.sub mx mn)

/-- Lines 115–120: the composite score column.  Each of the four ranked
columns is min-max normalised over the current table, the price-to-rent term
is inverted, and the weighted terms are summed left to right. -/
def scoreRows (rows : List TmpRow) : List PVal :=
  let p2rCol := rows.map (·.price_to_rent)
  let growthCol := rows.map (·.zhvi_growth)
  let tempCol := rows.map (·.market_temp_index)
  let sinvCol := rows.map (·.sales_inventory)
  rows.map (fun r =>
    PVal.add (PVal.add (PVal.add
      (PVal.mul
        (PVal.sub (PVal.num 1)
          (normalizeVal r.price_to_rent (nanmin p2rCol) (nanmax p2rCol)))
        (PVal.num 0.4))
      (PVal.mul
        (normalizeVal r.zhvi_growth (nanmin growthCol) (nanmax growthCol))
        (PVal.num 0.25)))
      (PVal.mul
        (normalizeVal r.market_temp_index (nanmin tempCol) (nanmax tempCol))
        (PVal.num 0.2)))
      (PVal.mul
        (normalizeVal r.sales_inventory (nanmin sinvCol) (nanmax sinvCol))
        (PVal.num 0.15)))

/-- Insert a scored row into a descending run (used to model the comparison
sort of `sort_values`). -/
def insertByScore (x : TmpRow × PVal) :
    List (TmpRow × PVal) → List (TmpRow × PVal)
  | [] => [x]
  | y :: ys => if PVal.ble y.2 x.2 then x :: y :: ys else y :: insertByScore x ys

def sortByScoreDesc : List (TmpRow × PVal) → List (TmpRow × PVal)
  | [] => []
  | x :: xs => insertByScore x (sortByScoreDesc xs)

/-- Lines 122–126: `tmp.sort_values("score", ascending=False).head(25)`.
pandas compares only the non-NaN scores and, with the default
`na_position="last"`, appends the NaN-scored rows after them. -/
def rankMetros (rows : List MetroRow) : List (TmpRow × PVal) :=
  let tmp := rows.map deriveTmp
  let scored := tmp.zip (scoreRows tmp)
  let defined := scored.filter (fun p => !p.2.isNaN)
  let undef := scored.filter (fun p => p.2.isNaN)
  (sortByScoreDesc defined ++ undef).take 25

theorem mem_insertByScore (x a : TmpRow × PVal) :
    ∀ l : List (TmpRow × PVal), x ∈ insertByScore a l → x = a ∨ x ∈ l := by
  intro l
  induction l with
  | nil =>
    intro h
    simpa [insertByScore] using h
  | cons y ys ih =>
    intro h
    rw [insertByScore] at h
    split_ifs at h
    · rcases List.mem_cons.mp h with h | h
      · exact Or.inl h
      · exact Or.inr h
    · rcases List.mem_cons.mp h with h | h
      · subst h
        exact Or.inr (List.mem_cons_self _ _)
      · rcases ih h with h | h
        · exact Or.inl h
        · exact Or.inr (List.mem_cons_of_mem _ h)

theorem mem_sortByScoreDesc (x : TmpRow × PVal) :
    ∀ l : List (TmpRow × PVal), x ∈ sortByScoreDesc l → x ∈ l := by
  intro l
  induction l with
  | nil =>
    intro h
    simpa [sortByScoreDesc] using h
  | cons y ys ih =>
    intro h
    rw [sortByScoreDesc] at h
    rcases mem_insertByScore x y _ h with h | h
    · subst h
      exact List.mem_cons_self _ _
    · exact List.mem_cons_of_mem _ (ih h)

theorem replaceInf_div_zero (v : PVal) :
    replaceInf (PVal.div v (PVal.num 0)) = PVal.nan := by
  cases v <;> simp [PVal.div, replaceInf] <;> split_ifs <;> rfl

theorem replaceInf_not_infinite (v : PVal) :
    replaceInf v ≠ PVal.inf ∧ replaceInf v ≠ PVal.ninf := by
  cases v <;> simp [replaceInf]

/-- In a truncated partition `defined ++ undefined`, every position holding a
non-NaN score precedes every position holding a NaN score. -/
theorem take_partition_position (p : TmpRow × PVal → Bool)
    (L1 L2 : List (TmpRow × PVal)) (k i j : ℕ)
    (h1 : ∀ x ∈ L1, p x = false) (h2 : ∀ x ∈ L2, p x = true)
    (hi : i < ((L1 ++ L2).take k).length) (hj : j < ((L1 ++ L2).take k).length)
    (hpi : p (((L1 ++ L2).take k).get ⟨i, hi⟩) = false)
    (hpj : p (((L1 ++ L2).take k).get ⟨j, hj⟩) = true) : i < j := by
  rw [List.get_eq_getElem, List.getElem_take] at hpi hpj
  have hi' : i < (L1 ++ L2).length := lt_of_lt_of_le hi (by
    rw [List.length_take]; exact min_le_right _ _)
  have hj' : j < (L1 ++ L2).length := lt_of_lt_of_le hj (by
    rw [List.length_take]; exact min_le_right _ _)
  have hiL1 : i < L1.length := by
    by_contra hle
    push_neg at hle
    rw [List.getElem_append_right hle] at hpi
    have hb : i - L1.length < L2.length := by
      rw [List.length_append] at hi'
      omega
    rw [h2 _ (List.getElem_mem hb)] at hpi
    simp at hpi
  have hjL1 : L1.length ≤ j := by
    by_contra hlt
    push_neg at hlt
    rw [List.getElem_append_left hlt] at hpj
    rw [h1 _ (List.getElem_mem hlt)] at hpj
    simp at hpj
  exact lt_of_lt_of_le hiL1 hjL1

/-- C4: a zero `zori` or zero `inventory` makes the corresponding derived
column NaN (undefined) — never `±inf` — and in the descending ranking every
NaN-scored row sits strictly after every row with a defined score. -/
theorem c4_undefined_after_defined :
    (∀ r : MetroRow, r.zori = some 0 → (deriveTmp r).price_to_rent = PVal.nan)
    ∧ (∀ r : MetroRow, r.inventory = some 0 →
        (deriveTmp r).sales_inventory = PVal.nan)
    ∧ (∀ r : MetroRow,
        (deriveTmp r).price_to_rent ≠ PVal.inf
        ∧ (deriveTmp r).price_to_rent ≠ PVal.ninf
        ∧ (deriveTmp r).sales_inventory ≠ PVal.inf
        ∧ (deriveTmp r).sales_inventory ≠ PVal.ninf)
    ∧ (∀ rows : List MetroRow, ∀ i j : ℕ,
        ∀ hi : i < (rankMetros rows).length,
        ∀ hj : j < (rankMetros rows).length,
        ((rankMetros rows).get ⟨i, hi⟩).2.isNaN = false →
        ((rankMetros rows).get ⟨j, hj⟩).2.isNaN = true → i < j) := by
  refine ⟨?_, ?_, ?_, ?_⟩
  · intro r h
    show replaceInf (PVal.div (toPVal r.zhvi) (toPVal r.zori)) = PVal.nan
    rw [h]
    exact replaceInf_div_zero _
  · intro r h
    show replaceInf (PVal.div (toPVal r.sales_count) (toPVal r.inventory))
        = PVal.nan
    rw [h]
    exact replaceInf_div_zero _
  · intro r
    exact ⟨(replaceInf_not_infinite _).1, (replaceInf_not_infinite _).2,
      (replaceInf_not_infinite _).1, (replaceInf_not_infinite _).2⟩
  · intro rows i j hi hj hdef hnan
    refine take_partition_position (fun x => x.2.isNaN) _ _ 25 i j ?_ ?_ hi hj
      hdef hnan
    · intro x hx
      have hx' := mem_sortByScoreDesc x _ hx
      have := List.of_mem_filter hx'
      simpa using this
    · intro x hx
      simpa using List.of_mem_filter hx

/-- Concrete metros for the C4 witness: two fully defined rows and one with
`zori = 0`. -/
def wRowA : MetroRow :=
  ⟨some "A", some "AA", some 100000, some 1000, some 10, some 5, some 2,
    some (1 / 100)⟩

def wRowB : MetroRow :=
  ⟨some "B", some "BB", some 300000, some 1000, some 20, some 5, some 8,
    some (4 / 100)⟩

def wRowC : MetroRow :=
  ⟨some "C", some "CC", some 200000, some 0, some 10, some 5, some 5,
    some (2 / 100)⟩

/-- C4 witness: the zero-rent metro gets a NaN price-to-rent, and in the
three-metro ranking the defined-score row at position 0 precedes the
NaN-score row at position 2. -/
theorem c4_undefined_after_defined_witness :
    (deriveTmp wRowC).price_to_rent = PVal.nan ∧ (0 : ℕ) < 2 := by
  have hrank : rankMetros [wRowA, wRowB, wRowC]
      = [(deriveTmp wRowA, PVal.num (11 / 20)),
         (deriveTmp wRowB, PVal.num (9 / 20)),
         (deriveTmp wRowC, PVal.nan)] := by
    norm_num [rankMetros, scoreRows, deriveTmp, toPVal, replaceInf,
      normalizeVal, nanmin, nanmax, PVal.pvmin, PVal.pvmax, PVal.ble,
      PVal.div, PVal.mul, PVal.add, PVal.sub, PVal.neg, PVal.isNaN,
      sortByScoreDesc, insertByScore, wRowA, wRowB, wRowC]
  have h0 : 0 < (rankMetros [wRowA, wRowB, wRowC]).length := by
    rw [hrank]; norm_num
  have h2 : 2 < (rankMetros [wRowA, wRowB, wRowC]).length := by
    rw [hrank]; norm_num
  refine ⟨c4_undefined_after_defined.1 wRowC rfl,
    c4_undefined_after_defined.2.2.2 [wRowA, wRowB, wRowC] 0 2 h0 h2 ?_ ?_⟩
  · rw [List.get_of_eq hrank]
    rfl
  · rw [List.get_of_eq hrank]
    rfl

theorem mul_neg_right_iff (c : ℚ) (hc : 0 < c) (a : ℚ) : a * c < 0 ↔ a < 0 := by
  constructor
  · intro h
    by_contra hna
    push_neg at hna
    nlinarith
  · intro h
    exact mul_neg_of_neg_of_pos h hc

theorem isNaN_mul_num (c : ℚ) (hc : 0 < c) (v : PVal) :
    (PVal.mul v (PVal.num c)).isNaN = v.isNaN := by
  cases v <;> simp [PVal.mul, PVal.isNaN, hc]

theorem ble_mul_num (c : ℚ) (hc : 0 < c) (a b : PVal) :
    PVal.ble (PVal.mul a (PVal.num c)) (PVal.mul b (PVal.num c))
      = PVal.ble a b := by
  cases a <;> cases b <;>
    simp [PVal.mul, PVal.ble, hc, mul_le_mul_right hc]

theorem pvmin_mul_num (c : ℚ) (hc : 0 < c) (a b : PVal) :
    PVal.pvmin (PVal.mul a (PVal.num c)) (PVal.mul b (PVal.num c))
      = PVal.mul (PVal.pvmin a b) (PVal.num c) := by
  unfold PVal.pvmin
  rw [ble_mul_num c hc]
  split_ifs <;> rfl

theorem pvmax_mul_num (c : ℚ) (hc : 0 < c) (a b : PVal) :
    PVal.pvmax (PVal.mul a (PVal.num c)) (PVal.mul b (PVal.num c))
      = PVal.mul (PVal.pvmax a b) (PVal.num c) := by
  unfold PVal.pvmax
  rw [ble_mul_num c hc]
  split_ifs <;> rfl

theorem filter_isNaN_map_mul_num (c : ℚ) (hc : 0 < c) (l : List PVal) :
    (l.map (fun v => PVal.mul v (PVal.num c))).filter (fun v => !v.isNaN)
      = (l.filter (fun v => !v.isNaN)).map (fun v => PVal.mul v (PVal.num c)) := by
  induction l with
  | nil => rfl
  | cons x xs ih =>
    simp only [List.map_cons, List.filter_cons, isNaN_mul_num c hc]
    cases hx : x.isNaN <;> simp [hx, ih]

theorem foldl_pvmin_map_mul_num (c : ℚ) (hc : 0 < c) (l : List PVal) :
    ∀ v : PVal,
      (l.map (fun x => PVal.mul x (PVal.num c))).foldl PVal.pvmin
          (PVal.mul v (PVal.num c))
        = PVal.mul (l.foldl PVal.pvmin v) (PVal.num c) := by
  induction l with
  | nil => intro v; rfl
  | cons x xs ih =>
    intro v
    simp only [List.map_cons, List.foldl_cons]
    rw [pvmin_mul_num c hc]
    exact ih _

theorem foldl_pvmax_map_mul_num (c : ℚ) (hc : 0 < c) (l : List PVal) :
    ∀ v : PVal,
      (l.map (fun x => PVal.mul x (PVal.num c))).foldl PVal.pvmax
          (PVal.mul v (PVal.num c))
        = PVal.mul (l.foldl PVal.pvmax v) (PVal.num c) := by
  induction l with
  | nil => intro v; rfl
  | cons x xs ih =>
    intro v
    simp only [List.map_cons, List.foldl_cons]
    rw [pvmax_mul_num c hc]
    exact ih _

theorem nanmin_map_mul_num (c : ℚ) (hc : 0 < c) (l : List PVal) :
    nanmin (l.map (fun v => PVal.mul v (PVal.num c)))
      = PVal.mul (nanmin l) (PVal.num c) := by
  unfold nanmin
  rw [filter_isNaN_map_mul_num c hc]
  cases hf : l.filter (fun v => !v.isNaN) with
  | nil => rfl
  | cons v vs =>
    simp only [List.map_cons]
    exact foldl_pvmin_map_mul_num c hc vs v

theorem nanmax_map_mul_num (c : ℚ) (hc : 0 < c) (l : List PVal) :
    nanmax (l.map (fun v => PVal.mul v (PVal.num c)))
      = PVal.mul (nanmax l) (PVal.num c) := by
  unfold nanmax
  rw [filter_isNaN_map_mul_num c hc]
  cases hf : l.filter (fun v => !v.isNaN) with
  | nil => rfl
  | cons v vs =>
    simp only [List.map_cons]
    exact foldl_pvmax_map_mul_num c hc vs v

theorem nanmin_scale (c : ℚ) (hc : 0 < c) (g : TmpRow → PVal)
    (rows : List TmpRow) :
    nanmin (rows.map (fun r => PVal.mul (g r) (PVal.num c)))
      = PVal.mul (nanmin (rows.map g)) (PVal.num c) := by
  have h : rows.map (fun r => PVal.mul (g r) (PVal.num c))
      = (rows.map g).map (fun v => PVal.mul v (PVal.num c)) := by
    simp [List.map_map, Function.comp]
  rw [h]
  exact nanmin_map_mul_num c hc _

theorem nanmax_scale (c : ℚ) (hc : 0 < c) (g : TmpRow → PVal)
    (rows : List TmpRow) :
    nanmax (rows.map (fun r => PVal.mul (g r) (PVal.num c)))
      = PVal.mul (nanmax (rows.map g)) (PVal.num c) := by
  have h : rows.map (fun r => PVal.mul (g r) (PVal.num c))
      = (rows.map g).map (fun v => PVal.mul v (PVal.num c)) := by
    simp [List.map_map, Function.comp]
  rw [h]
  exact nanmax_map_mul_num c hc _

theorem sub_mul_num (c : ℚ) (hc : 0 < c) (a b : PVal) :
    PVal.sub (PVal.mul a (PVal.num c)) (PVal.mul b (PVal.num c))
      = PVal.mul (PVal.sub a b) (PVal.num c) := by
  cases a <;> cases b <;>
      simp [PVal.sub, PVal.add, PVal.neg, PVal.mul, hc] <;>
    ring

theorem div_mul_num (c : ℚ) (hc : 0 < c) (a b : PVal) :
    PVal.div (PVal.mul a (PVal.num c)) (PVal.mul b (PVal.num c))
      = PVal.div a b := by
  have hc0 : c ≠ 0 := ne_of_gt hc
  cases a with
  | num a =>
    cases b with
    | num b =>
      by_cases hb : b = 0
      · subst hb
        simp only [PVal.mul, zero_mul]
        simp [PVal.div, mul_pos_iff_of_pos_right hc, mul_neg_right_iff c hc]
      · have hbc : b * c ≠ 0 := mul_ne_zero hb hc0
        have hdiv : a * c / (b * c) = a / b := by
          field_simp
          ring
        simp [PVal.mul, PVal.div, hb, hbc, hdiv]
    | nan => simp [PVal.mul, PVal.div, hc]
    | inf => simp [PVal.mul, PVal.div, hc]
    | ninf => simp [PVal.mul, PVal.div, hc]
  | nan => cases b <;> simp [PVal.mul, PVal.div, hc]
  | inf =>
    cases b with
    | num b => simp [PVal.mul, PVal.div, hc, mul_neg_right_iff c hc]
    | nan => simp [PVal.mul, PVal.div, hc]
    | inf => simp [PVal.mul, PVal.div, hc]
    | ninf => simp [PVal.mul, PVal.div, hc]
  | ninf =>
    cases b with
    | num b => simp [PVal.mul, PVal.div, hc, mul_neg_right_iff c hc]
    | nan => simp [PVal.mul, PVal.div, hc]
    | inf => simp [PVal.mul, PVal.div, hc]
    | ninf => simp [PVal.mul, PVal.div, hc]

theorem normalizeVal_mul_num (c : ℚ) (hc : 0 < c) (x mn mx : PVal) :
    normalizeVal (PVal.mul x (PVal.num c)) (PVal.mul mn (PVal.num c))
        (PVal.mul mx (PVal.num c))
      = normalizeVal x mn mx := by
  unfold normalizeVal
  rw [sub_mul_num c hc, sub_mul_num c hc, div_mul_num c hc]

/-- One of the four ranked columns of the metro-ranking frame. -/
inductive RankCol where
  | p2r
  | growth
  | temp
  | sinv
deriving DecidableEq

/-- Multiply one ranked column by a constant (`tmp[col] * c`), leaving the
other columns untouched. -/
def scaleCol : RankCol → ℚ → TmpRow → TmpRow
  | RankCol.p2r, c, r =>
    ⟨r.RegionName, r.StateName, r.zhvi, r.zori, r.inventory, r.sales_count,
      r.market_temp_index, r.zhvi_growth,
      PVal.mul r.price_to_rent (PVal.num c), r.sales_inventory⟩
  | RankCol.growth, c, r =>
    ⟨r.RegionName, r.StateName, r.zhvi, r.zori, r.inventory, r.sales_count,
      r.market_temp_index, PVal.mul r.zhvi_growth (PVal.num c),
      r.price_to_rent, r.sales_inventory⟩
  | RankCol.temp, c, r =>
    ⟨r.RegionName, r.StateName, r.zhvi, r.zori, r.inventory, r.sales_count,
      PVal.mul r.market_temp_index (PVal.num c), r.zhvi_growth,
      r.price_to_rent, r.sales_inventory⟩
  | RankCol.sinv, c, r =>
    ⟨r.RegionName, r.StateName, r.zhvi, r.zori, r.inventory, r.sales_count,
      r.market_temp_index, r.zhvi_growth, r.price_to_rent,
      PVal.mul r.sales_inventory (PVal.num c)⟩

/-- C7: multiplying any one of the four ranked columns by a positive
constant leaves every composite score unchanged (min-max normalisation is
per-table), so the relative order of the metros is unchanged. -/
theorem c7_scale_invariance (rows : List TmpRow) (col : RankCol) (c : ℚ)
    (hc : 0 < c) :
    scoreRows (rows.map (scaleCol col c)) = scoreRows rows := by
  cases col <;>
    simp only [scoreRows, List.map_map, Function.comp_def, scaleCol,
      nanmin_scale c hc, nanmax_scale c hc, normalizeVal_mul_num c hc]

/-- C7 witness: doubling the price-to-rent column of a concrete two-row
table leaves the scores unchanged. -/
theorem c7_scale_invariance_witness :
    scoreRows ([deriveTmp wRowA, deriveTmp wRowB].map (scaleCol RankCol.p2r 2))
      = scoreRows [deriveTmp wRowA, deriveTmp wRowB] :=
  c7_scale_invariance [deriveTmp wRowA, deriveTmp wRowB] RankCol.p2r 2
    (by norm_num)

end HomeLens
